import Mathlib

/-!
Verification of the region-management core of the distinst partitioning
engine, shallowly embedded from `src/disk/config/disk_trait.rs`. Machine
integers are modelled as `Nat` with explicit reduction modulo `2 ^ 64`
wherever the u64 arithmetic of the source can wrap. External collaborators
(the partition-table legality check, the filesystem size check, the
builder finalization, the sysfs attribute store and the collection lookup)
are modelled as explicit parameters or, where the spec fixes their
behaviour, as definitions marked `Modelled from the spec`.
-/

namespace Distinst

/-- Word bound of the u64 arithmetic used throughout the source. -/
def W : Nat := 2 ^ 64

/-- Wrapping u64 subtraction, the release-mode semantics of `a - b`. -/
def wsub (a b : Nat) : Nat := (a % W + W - b % W) % W

/-- Partition table kinds. -/
inductive PartitionTable
  | Gpt
  | Msdos
  deriving DecidableEq, Repr

/-- Partition type classification, meaningful for MBR-style tables. -/
inductive PartitionType
  | Primary
  | Extended
  | Logical
  deriving DecidableEq, Repr

/-- Filesystem kinds are opaque to this module; an abstract code suffices. -/
abbrev FileSystem := Nat

/-- Error kinds surfaced by this module. Opaque errors produced by the
external table-legality and filesystem-size collaborators are carried by
the `External` constructor. -/
inductive DiskError
  | SectorOverlaps (id : Int)
  | PartitionOOB
  | External (code : Nat)
  deriving DecidableEq, Repr

/-- A partition entry of a device. The `remove` field is modelled from the
spec: it stands for `flag_is_enabled(REMOVE)`, the soft-delete marker of
the flag set defined in `partitions.rs` outside this module; no other flag
is consulted by this module. -/
structure PartitionInfo where
  number : Int
  start_sector : Nat
  end_sector : Nat
  remove : Bool
  mount_point : Option String
  target : Option String
  volume_group : Option (String × Nat)
  filesystem : Option FileSystem
  part_type : PartitionType
  deriving DecidableEq, Repr

/-- Modelled from the spec: `sectors()` of a partition is
`end_sector - start_sector + 1` (data model, with the invariant
`start_sector <= end_sector`); `PartitionInfo::sectors` is defined in
`partitions.rs`, outside this module. -/
def sectors (p : PartitionInfo) : Nat := p.end_sector - p.start_sector + 1

/-- A block device, physical or logical; the fields mirror the getters of
the `DiskExt` trait (`get_device_path`, `get_mount_point`,
`get_partitions`, `get_sectors`, `get_sector_size`, `get_table_type`) and
the `LOGICAL` associated constant. -/
structure Device where
  device_path : String
  model : String
  mount_point : Option String
  partitions : List PartitionInfo
  total_sectors : Nat
  sector_size : Nat
  table_type : Option PartitionTable
  logical : Bool
  deriving DecidableEq, Repr

/-- Modelled from the spec: the Device Collection resolves a volume-group
name to its logical device (`lookup_logical_device`); membership is kept
as an association list from group name to device. -/
structure Disks where
  logical_devices : List (String × Device)
  deriving DecidableEq, Repr

/-- Modelled from the spec: lookup of the logical device backing a volume
group, by name. -/
def get_logical_device (ds : Disks) (vg : String) : Option Device :=
  (ds.logical_devices.find? (fun e => decide (e.1 = vg))).map (fun e => e.2)

/-- The 2 MiB alignment reserve used by the sector resolver. -/
def MIB2 : Nat := 2 * 1024 * 1024

/-- Symbolic sector specifications, as the `Sector` enum of the source. -/
inductive Sector
  | Start
  | End
  | Megabyte (size : Nat)
  | MegabyteFromEnd (size : Nat)
  | Unit (size : Nat)
  | UnitFromEnd (size : Nat)
  | Percent (value : Nat)
  deriving DecidableEq, Repr

/-- The `end` closure of `get_sector`: `get_sectors() - MIB2 / sector_size`
in u64 arithmetic. -/
def end_of (d : Device) : Nat := wsub d.total_sectors (MIB2 / d.sector_size)

/-- The `megabyte` closure of `get_sector`:
`(size * 1_000_000) / sector_size` in u64 arithmetic. -/
def megabyte_of (d : Device) (size : Nat) : Nat :=
  size * 1000000 % W / d.sector_size

/-- Shallow embedding of `DiskExt::get_sector`. The `Percent` value is a
u16 of the source, hence the reduction modulo `2 ^ 16`. -/
def get_sector (d : Device) (sector : Sector) : Nat :=
  match sector with
  | Sector.Start => MIB2 / d.sector_size
  | Sector.End => end_of d
  | Sector.Megabyte size => megabyte_of d size
  | Sector.MegabyteFromEnd size => wsub (end_of d) (megabyte_of d size)
  | Sector.Unit size => size
  | Sector.UnitFromEnd size => wsub (end_of d) size
  | Sector.Percent value =>
      d.total_sectors * d.sector_size % W / 65535 * (value % 65536) % W /
        d.sector_size

/-- A demonstration geometry: 512-byte sectors, two million of them. -/
def demo_device : Device :=
  { device_path := "/dev/sda"
    model := "Demo"
    mount_point := none
    partitions := []
    total_sectors := 2000000
    sector_size := 512
    table_type := some PartitionTable.Gpt
    logical := false }

/-- Conflict test applied by `overlaps_region` to one partition: the
candidate range `[s, e]` conflicts unless both its bounds fall strictly
before the partition starts or both fall strictly after it ends. -/
def conflicts (s e : Nat) (p : PartitionInfo) : Bool :=
  !((decide (s < p.start_sector) && decide (e < p.start_sector))
    || (decide (s > p.end_sector) && decide (e > p.end_sector)))

/-- Shallow embedding of `DiskExt::overlaps_region`: filter out partitions
staged for removal, find the first conflicting one, return its number. -/
def overlaps_region (d : Device) (s e : Nat) : Option Int :=
  ((d.partitions.filter (fun p => !p.remove)).find?
      (fun p => conflicts s e p)).map (fun p => p.number)

/-- Shallow embedding of `DiskExt::get_used`: the sum of `sectors()` over
partitions not staged for removal, with the u64 wrap of `sum()`. -/
def get_used (d : Device) : Nat :=
  ((d.partitions.filter (fun p => !p.remove)).map sectors).foldl
    (fun acc n => (acc + n) % W) 0

/-- C7: on a device with sector_size 512 and total_sectors 2,000,000 the
sector resolver yields 4096 for `Start`, 1,995,904 for `End` and 195,312
for `Megabyte 100`, in exact integer arithmetic. -/
theorem get_sector_scenario :
    get_sector demo_device Sector.Start = 4096 ∧
    get_sector demo_device Sector.End = 1995904 ∧
    get_sector demo_device (Sector.Megabyte 100) = 195312 := by
  refine ⟨by decide, by decide, by decide⟩

/-- Closed-interval intersection of `[s, e]` and `[ps, pe]`, written from
the words of the claim. -/
def intersects_spec (s e ps pe : Nat) : Prop := s ≤ pe ∧ ps ≤ e

/-- C10: for a candidate range with `s <= e` and a partition with ordered
bounds, the conflict condition of `overlaps_region` is exactly
closed-interval intersection. -/
theorem conflicts_iff_intersects (s e : Nat) (p : PartitionInfo)
    (hse : s ≤ e) (_hp : p.start_sector ≤ p.end_sector) :
    conflicts s e p = true ↔
      intersects_spec s e p.start_sector p.end_sector := by
  unfold conflicts intersects_spec
  simp only [Bool.not_eq_true', Bool.or_eq_false_iff, Bool.and_eq_false_iff,
    decide_eq_false_iff_not, not_lt, gt_iff_lt]
  omega

/-- A demonstration partition spanning sectors 3 to 4. -/
def demo_part : PartitionInfo :=
  { number := 7
    start_sector := 3
    end_sector := 4
    remove := false
    mount_point := none
    target := none
    volume_group := none
    filesystem := none
    part_type := PartitionType.Primary }

/-- Witness for C10 at the concrete range `[1, 5]` and `demo_part`. -/
theorem conflicts_iff_intersects_witness :
    conflicts 1 5 demo_part = true ↔
      intersects_spec 1 5 demo_part.start_sector demo_part.end_sector :=
  conflicts_iff_intersects 1 5 demo_part (by decide) (by decide)

theorem W_pos : 0 < W := by decide

theorem wsub_lt (a b : Nat) : wsub a b < W := Nat.mod_lt _ W_pos

/-- Below the word bound and without underflow, the wrapping subtraction
agrees with plain subtraction. -/
theorem wsub_eq_sub {a b : Nat} (hba : b ≤ a) (haW : a < W) :
    wsub a b = a - b := by
  unfold wsub
  rw [Nat.mod_eq_of_lt haW, Nat.mod_eq_of_lt (lt_of_le_of_lt hba haW)]
  have h : a + W - b = (a - b) + 1 * W := by omega
  rw [h, Nat.add_mul_mod_self_right, Nat.mod_eq_of_lt (by omega)]

/-- With a sector size of at most one decimal megabyte and no u64 wrap,
the `megabyte` conversion of the sector resolver is strictly monotone. -/
theorem megabyte_of_strict_mono {d : Device} {n m : Nat} (h : n < m)
    (hss0 : 0 < d.sector_size) (hss : d.sector_size ≤ 1000000)
    (hw : m * 1000000 < W) :
    megabyte_of d n < megabyte_of d m := by
  unfold megabyte_of
  have hn : n * 1000000 % W = n * 1000000 :=
    Nat.mod_eq_of_lt (lt_of_le_of_lt (Nat.mul_le_mul_right _ (le_of_lt h)) hw)
  have hm : m * 1000000 % W = m * 1000000 := Nat.mod_eq_of_lt hw
  rw [hn, hm]
  have key : n * 1000000 / d.sector_size + 1 ≤
      (n * 1000000 + 1000000) / d.sector_size := by
    rw [Nat.le_div_iff_mul_le hss0]
    have h1 : n * 1000000 / d.sector_size * d.sector_size ≤ n * 1000000 :=
      Nat.div_mul_le_self _ _
    have h2 : (n * 1000000 / d.sector_size + 1) * d.sector_size =
        n * 1000000 / d.sector_size * d.sector_size + d.sector_size := by ring
    omega
  have hstep : (n * 1000000 + 1000000) / d.sector_size ≤
      m * 1000000 / d.sector_size := by
    apply Nat.div_le_div_right
    have : (n + 1) * 1000000 ≤ m * 1000000 := Nat.mul_le_mul_right _ h
    omega
  omega

/-- C8 (amended): on the wrap-free range — sector size in (0, 10^6], no
u64 overflow in the megabyte conversion, and offsets that stay within the
`End` sector — `MegabyteFromEnd` and `UnitFromEnd` are strictly
decreasing in their argument. -/
theorem get_sector_from_end_strict_anti (d : Device) (n m : Nat)
    (hnm : n < m)
    (hss0 : 0 < d.sector_size) (hss : d.sector_size ≤ 1000000)
    (hw : m * 1000000 < W)
    (hmeg : megabyte_of d m ≤ end_of d) (hunit : m ≤ end_of d) :
    get_sector d (Sector.MegabyteFromEnd m) <
      get_sector d (Sector.MegabyteFromEnd n) ∧
    get_sector d (Sector.UnitFromEnd m) <
      get_sector d (Sector.UnitFromEnd n) := by
  have hEW : end_of d < W := wsub_lt _ _
  have hmono := megabyte_of_strict_mono hnm hss0 hss hw
  constructor
  · show wsub (end_of d) (megabyte_of d m) < wsub (end_of d) (megabyte_of d n)
    rw [wsub_eq_sub hmeg hEW,
      wsub_eq_sub (le_trans (le_of_lt hmono) hmeg) hEW]
    omega
  · show wsub (end_of d) m < wsub (end_of d) n
    rw [wsub_eq_sub hunit hEW,
      wsub_eq_sub (le_trans (le_of_lt hnm) hunit) hEW]
    omega

/-- Witness for the amended C8 on the demo geometry with offsets 0 < 1. -/
theorem get_sector_from_end_strict_anti_witness :
    get_sector demo_device (Sector.MegabyteFromEnd 1) <
      get_sector demo_device (Sector.MegabyteFromEnd 0) ∧
    get_sector demo_device (Sector.UnitFromEnd 1) <
      get_sector demo_device (Sector.UnitFromEnd 0) :=
  get_sector_from_end_strict_anti demo_device 0 1 (by decide) (by decide)
    (by decide) (by decide) (by decide) (by decide)

/-- C8 counterexample: on the demo geometry the u64 subtraction in
`MegabyteFromEnd` wraps once the megabyte offset passes the `End` sector
(1022 decimal megabytes is 1,996,093 sectors, past End = 1,995,904), so
the resolver is not strictly decreasing in its argument. -/
theorem get_sector_from_end_claim_false :
    0 < 1022 ∧
    ¬ get_sector demo_device (Sector.MegabyteFromEnd 1022) <
        get_sector demo_device (Sector.MegabyteFromEnd 0) := by decide

/-- A left fold of wrapping additions is the plain sum reduced mod `W`. -/
theorem foldl_wadd (l : List Nat) (acc : Nat) :
    l.foldl (fun a n => (a + n) % W) (acc % W) = (acc + l.sum) % W := by
  induction l generalizing acc with
  | nil => simp
  | cons x xs ih =>
    simp only [List.foldl_cons, List.sum_cons]
    rw [Nat.mod_add_mod, ih (acc + x), Nat.add_assoc]

/-- The used-capacity fold is the plain filtered sum reduced mod `W`. -/
theorem get_used_eq_sum (d : Device) :
    get_used d =
      ((d.partitions.filter (fun p => !p.remove)).map sectors).sum % W := by
  have h := foldl_wadd
    ((d.partitions.filter (fun p => !p.remove)).map sectors) 0
  rw [Nat.zero_mod, Nat.zero_add] at h
  exact h

/-- Summing `sectors` over the non-removed partitions is summing a
pointwise sum that sends removed partitions to zero. -/
theorem sum_filter_eq_sum_ite (l : List PartitionInfo) :
    ((l.filter (fun p => !p.remove)).map sectors).sum =
      (l.map (fun p => if p.remove then 0 else sectors p)).sum := by
  induction l with
  | nil => rfl
  | cons p ps ih =>
    cases hp : p.remove <;> simp [List.filter_cons, hp, ih]

/-- C5: `overlaps_region` reports `none` exactly when every partition is
staged for removal or conflict-free, reports `some n` exactly when `n` is
the number of the first partition, in stored order, that is neither, and
removed partitions contribute nothing to the used-capacity sum. -/
theorem overlaps_region_spec (d : Device) (s e : Nat) :
    (overlaps_region d s e = none ↔
      ∀ p ∈ d.partitions, p.remove = true ∨ conflicts s e p = false) ∧
    (∀ n : Int, overlaps_region d s e = some n ↔
      ∃ l₁ p l₂, d.partitions = l₁ ++ p :: l₂ ∧
        p.remove = false ∧ conflicts s e p = true ∧ n = p.number ∧
        ∀ q ∈ l₁, q.remove = true ∨ conflicts s e q = false) ∧
    get_used d =
      (d.partitions.map
        (fun p => if p.remove then 0 else sectors p)).sum % W := by
  have hP : ∀ (b c : Bool),
      (¬ (decide ((!b) = true ∧ c = true)) = true) ↔ (b = true ∨ c = false) := by
    decide
  have hQ : ∀ (b c : Bool),
      ((decide ((!b) = true ∧ c = true)) = true) ↔ (b = false ∧ c = true) := by
    decide
  have hN : ∀ (b c : Bool),
      ((!(decide ((!b) = true ∧ c = true))) = true) ↔ (b = true ∨ c = false) := by
    decide
  refine ⟨?_, ?_, ?_⟩
  · unfold overlaps_region
    rw [List.find?_filter, Option.map_eq_none', List.find?_eq_none]
    constructor
    · intro h p hp
      exact (hP p.remove (conflicts s e p)).1 (h p hp)
    · intro h p hp
      exact (hP p.remove (conflicts s e p)).2 (h p hp)
  · intro n
    unfold overlaps_region
    rw [List.find?_filter, Option.map_eq_some']
    constructor
    · rintro ⟨p, hfind, hnum⟩
      rw [List.find?_eq_some] at hfind
      rcases hfind with ⟨hp, l₁, l₂, hsplit, hprev⟩
      rcases (hQ p.remove (conflicts s e p)).1 hp with ⟨hrem, hconf⟩
      exact ⟨l₁, p, l₂, hsplit, hrem, hconf, hnum.symm,
        fun q hq => (hN q.remove (conflicts s e q)).1 (hprev q hq)⟩
    · rintro ⟨l₁, p, l₂, hsplit, hrem, hconf, hnum, hprev⟩
      refine ⟨p, ?_, hnum.symm⟩
      rw [List.find?_eq_some]
      exact ⟨(hQ p.remove (conflicts s e p)).2 ⟨hrem, hconf⟩, l₁, l₂, hsplit,
        fun q hq => (hN q.remove (conflicts s e q)).2 (hprev q hq)⟩
  · rw [get_used_eq_sum, sum_filter_eq_sum_ite]

/-- Witness for C5 at the demo device and the range `[0, 5]`. -/
theorem overlaps_region_spec_witness :
    overlaps_region demo_device 0 5 = none ↔
      ∀ p ∈ demo_device.partitions,
        p.remove = true ∨ conflicts 0 5 p = false :=
  (overlaps_region_spec demo_device 0 5).1

/-- A candidate partition description, as handed to `add_partition`. -/
structure PartitionBuilder where
  number : Int
  start_sector : Nat
  end_sector : Nat
  mount_point : Option String
  target : Option String
  filesystem : Option FileSystem
  part_type : PartitionType
  deriving DecidableEq, Repr

/-- Modelled from the spec: `PartitionBuilder::build` finalizes the
candidate into a concrete partition (placement step 4; the builder lives
outside this module). A fresh partition carries the builder fields and is
not staged for removal. -/
def PartitionBuilder.build (b : PartitionBuilder) : PartitionInfo :=
  { number := b.number
    start_sector := b.start_sector
    end_sector := b.end_sector
    remove := false
    mount_point := b.mount_point
    target := b.target
    volume_group := none
    filesystem := b.filesystem
    part_type := b.part_type }

/-- Shallow embedding of `DiskExt::add_partition`. The external
collaborators — the partition-table legality check of
`validate_partition_table` and the filesystem size check of
`check_partition_size` — are explicit parameters. The result pairs the
error, if any, with the resulting device state; `push_partition` appends
to the partition list. All u64 arithmetic carries its wrap. -/
def add_partition (validate : PartitionType → Except DiskError Unit)
    (check_size : Nat → Option FileSystem → Except DiskError Unit)
    (d : Device) (b : PartitionBuilder) : Option DiskError × Device :=
  match (if d.logical then none
         else overlaps_region d b.start_sector b.end_sector) with
  | some id => (some (DiskError.SectorOverlaps id), d)
  | none =>
    if (if d.logical then
          decide (d.total_sectors <
            (get_used d + wsub b.end_sector b.start_sector) % W)
        else
          decide (d.total_sectors < b.end_sector)) = true then
      (some DiskError.PartitionOOB, d)
    else
      match validate b.part_type with
      | Except.error e => (some e, d)
      | Except.ok _ =>
        match check_size (sectors b.build * d.sector_size % W)
            b.filesystem with
        | Except.error e => (some e, d)
        | Except.ok _ =>
          (none, { d with partitions := d.partitions ++ [b.build] })

/-- A table-legality check that accepts everything. -/
def validate_ok : PartitionType → Except DiskError Unit :=
  fun _ => Except.ok ()

/-- A filesystem size check that accepts everything. -/
def check_size_ok : Nat → Option FileSystem → Except DiskError Unit :=
  fun _ _ => Except.ok ()

/-- An empty volume-group-backed device with a pool of ten sectors. -/
def lvm_device : Device :=
  { device_path := "/dev/mapper/data"
    model := "LVM"
    mount_point := none
    partitions := []
    total_sectors := 10
    sector_size := 512
    table_type := none
    logical := true }

/-- A candidate spanning sectors 0 to 10 inclusive: eleven sectors. -/
def candidate10 : PartitionBuilder :=
  { number := 1
    start_sector := 0
    end_sector := 10
    mount_point := none
    target := none
    filesystem := none
    part_type := PartitionType.Primary }

/-- C1 counterexample: on the logical device of capacity 10 with no used
sectors, the candidate `[0, 10]` has `sectors() = 11 > 10`, so the claim
demands rejection with `PartitionOOB`; the code charges only
`end_sector - start_sector = 10` sectors against the pool and accepts. -/
theorem add_partition_logical_claim_false :
    lvm_device.total_sectors <
      get_used lvm_device + sectors (PartitionBuilder.build candidate10) ∧
    (add_partition validate_ok check_size_ok lvm_device candidate10).1 =
      none := by decide

/-- C1 (amended): on a logical device, with the external checks passing
and no u64 wrap, `add_partition` accepts exactly when
`used + (end_sector - start_sector)` fits the pool capacity, and any
rejection carries `PartitionOOB`. -/
theorem add_partition_logical_capacity
    (validate : PartitionType → Except DiskError Unit)
    (check_size : Nat → Option FileSystem → Except DiskError Unit)
    (d : Device) (b : PartitionBuilder)
    (hlog : d.logical = true)
    (hse : b.start_sector ≤ b.end_sector)
    (hbW : b.end_sector < W)
    (hW : get_used d + (b.end_sector - b.start_sector) < W)
    (hv : ∀ t, validate t = Except.ok ())
    (hc : ∀ nb fs, check_size nb fs = Except.ok ()) :
    ((add_partition validate check_size d b).1 = none ↔
      get_used d + (b.end_sector - b.start_sector) ≤ d.total_sectors) ∧
    (∀ er, (add_partition validate check_size d b).1 = some er →
      er = DiskError.PartitionOOB) := by
  unfold add_partition
  rw [hlog]
  simp only [if_true, hv, hc]
  rw [wsub_eq_sub hse hbW, Nat.mod_eq_of_lt hW]
  by_cases hcap :
      d.total_sectors < get_used d + (b.end_sector - b.start_sector)
  · simp [hcap]
  · simp [hcap]
    omega

/-- Witness for the amended C1: the accepted candidate on the empty pool
device. -/
theorem add_partition_logical_capacity_witness :
    ((add_partition validate_ok check_size_ok lvm_device candidate10).1 =
        none ↔
      get_used lvm_device +
        (candidate10.end_sector - candidate10.start_sector) ≤
          lvm_device.total_sectors) ∧
    (∀ er,
      (add_partition validate_ok check_size_ok lvm_device candidate10).1 =
          some er →
        er = DiskError.PartitionOOB) :=
  add_partition_logical_capacity validate_ok check_size_ok lvm_device
    candidate10 (by decide) (by decide) (by decide) (by decide)
    (fun _ => rfl) (fun _ _ => rfl)

/-- C4: `add_partition` is atomic — on every failure the device is
returned exactly as it was, and on success the partition list is appended
with exactly the built candidate. -/
theorem add_partition_atomic
    (validate : PartitionType → Except DiskError Unit)
    (check_size : Nat → Option FileSystem → Except DiskError Unit)
    (d : Device) (b : PartitionBuilder) :
    ((add_partition validate check_size d b).1.isSome →
      (add_partition validate check_size d b).2 = d) ∧
    ((add_partition validate check_size d b).1 = none →
      (add_partition validate check_size d b).2.partitions =
        d.partitions ++ [b.build]) := by
  unfold add_partition
  repeat' split
  all_goals refine ⟨fun h1 => ?_, fun h2 => ?_⟩ <;> simp_all

/-- Witness for C4 on the success path of the empty logical device. -/
theorem add_partition_atomic_witness :
    (add_partition validate_ok check_size_ok lvm_device
        candidate10).2.partitions =
      lvm_device.partitions ++ [candidate10.build] :=
  (add_partition_atomic validate_ok check_size_ok lvm_device
      candidate10).2 (by decide)

/-- An existing physical partition spanning sectors 4096 to 500,000. -/
def phys_part : PartitionInfo :=
  { number := 1
    start_sector := 4096
    end_sector := 500000
    remove := false
    mount_point := none
    target := none
    volume_group := none
    filesystem := none
    part_type := PartitionType.Primary }

/-- A physical device holding `phys_part`. -/
def phys_device : Device :=
  { device_path := "/dev/sdc"
    model := "Phys"
    mount_point := none
    partitions := [phys_part]
    total_sectors := 2000000
    sector_size := 512
    table_type := some PartitionTable.Gpt
    logical := false }

/-- A candidate range `[499000, 600000]`, overlapping `phys_part`. -/
def overlapping_candidate : PartitionBuilder :=
  { number := 2
    start_sector := 499000
    end_sector := 600000
    mount_point := none
    target := none
    filesystem := none
    part_type := PartitionType.Primary }

/-- C6: on a physical device `add_partition` reports the first conflicting
partition as `SectorOverlaps` before any capacity concern; with no
conflict, and external checks that never produce `PartitionOOB`, it fails
with `PartitionOOB` exactly when the candidate end sector exceeds the
device capacity. -/
theorem add_partition_physical_errors
    (validate : PartitionType → Except DiskError Unit)
    (check_size : Nat → Option FileSystem → Except DiskError Unit)
    (d : Device) (b : PartitionBuilder)
    (hphys : d.logical = false)
    (hv : ∀ t, validate t ≠ Except.error DiskError.PartitionOOB)
    (hc : ∀ nb fs, check_size nb fs ≠ Except.error DiskError.PartitionOOB) :
    (∀ id, overlaps_region d b.start_sector b.end_sector = some id →
      add_partition validate check_size d b =
        (some (DiskError.SectorOverlaps id), d)) ∧
    (overlaps_region d b.start_sector b.end_sector = none →
      ((add_partition validate check_size d b).1 =
          some DiskError.PartitionOOB ↔
        d.total_sectors < b.end_sector)) := by
  constructor
  · intro id hid
    unfold add_partition
    rw [hphys]
    simp [hid]
  · intro hnone
    by_cases hcap : d.total_sectors < b.end_sector
    · simp [add_partition, hphys, hnone, hcap]
    · cases hval : validate b.part_type with
      | error e =>
        simp [add_partition, hphys, hnone, hcap, hval]
        intro he
        exact hv b.part_type (he ▸ hval)
      | ok u =>
        cases u
        cases hchk : check_size (sectors b.build * d.sector_size % W)
            b.filesystem with
        | error e =>
          simp [add_partition, hphys, hnone, hcap, hval, hchk]
          intro he
          exact hc _ _ (he ▸ hchk)
        | ok u =>
          cases u
          simp [add_partition, hphys, hnone, hcap, hval, hchk]

/-- Witness for C6: the spec overlap scenario, candidate `[499000,
600000]` against the partition `[4096, 500000]` numbered 1. -/
theorem add_partition_physical_errors_witness :
    add_partition validate_ok check_size_ok phys_device
        overlapping_candidate =
      (some (DiskError.SectorOverlaps 1), phys_device) :=
  (add_partition_physical_errors validate_ok check_size_ok phys_device
      overlapping_candidate rfl
      (fun t h => by simp [validate_ok] at h)
      (fun nb fs h => by simp [check_size_ok] at h)).1 1 (by decide)

/-- Shallow embedding of `DiskExt::contains_mount`. The `get_parent` back
reference is modelled by the explicit `disks` context, shared by every
device of the collection; `fuel` bounds the recursion depth through
volume-group membership, which the source leaves unbounded. A `map_or_else`
on the device `mount_point` either compares it against the target or, only
when it is absent, scans the partitions. -/
def contains_mount (disks : Option Disks) : Nat → Device → String → Bool
  | 0, _, _ => false
  | fuel + 1, d, mount =>
    match d.mount_point with
    | some m => decide (m = mount)
    | none =>
      d.partitions.any fun p =>
        if p.mount_point = some mount then true
        else
          match p.volume_group with
          | some vg =>
            match disks with
            | some ds =>
              match get_logical_device ds vg.1 with
              | some ld => contains_mount disks fuel ld mount
              | none => false
            | none => false
          | none => false

/-- A partition carrying a live mount at `/target`. -/
def mounted_part : PartitionInfo :=
  { number := 1
    start_sector := 0
    end_sector := 0
    remove := false
    mount_point := some "/target"
    target := none
    volume_group := none
    filesystem := none
    part_type := PartitionType.Primary }

/-- A device mounted whole at `/other` while its partition is mounted at
`/target`. -/
def busy_device : Device :=
  { device_path := "/dev/sdb"
    model := "Busy"
    mount_point := some "/other"
    partitions := [mounted_part]
    total_sectors := 1000
    sector_size := 512
    table_type := some PartitionTable.Gpt
    logical := false }

/-- C2 counterexample: `busy_device` carries a whole-device mount point
`/other` different from the target, and a partition whose `mount_point`
is the target `/target`; the claim says the partitions are scanned and
true is returned, but `contains_mount` answers false without scanning. -/
theorem contains_mount_claim_false :
    busy_device.mount_point ≠ some "/target" ∧
    (∃ p ∈ busy_device.partitions, p.mount_point = some "/target") ∧
    contains_mount none 5 busy_device "/target" = false := by decide

/-- C2 (amended): `contains_mount` is true exactly when the whole-device
mount point equals the target or, only in the absence of a whole-device
mount point, some partition carries the target as its live mount or
belongs to a volume group whose logical device transitively contains it;
when a whole-device mount point differs from the target the result is
false with no partition scan. -/
theorem contains_mount_characterization (disks : Option Disks)
    (fuel : Nat) (d : Device) (mount : String) :
    contains_mount disks (fuel + 1) d mount = true ↔
      (d.mount_point = some mount ∨
        (d.mount_point = none ∧ ∃ p ∈ d.partitions,
          p.mount_point = some mount ∨
          ∃ vg, p.volume_group = some vg ∧
            ∃ ds, disks = some ds ∧
              ∃ ld, get_logical_device ds vg.1 = some ld ∧
                contains_mount disks fuel ld mount = true)) := by
  cases hmp : d.mount_point with
  | some m =>
    simp [contains_mount, hmp]
  | none =>
    simp only [contains_mount, hmp, List.any_eq_true, true_and,
      Option.some_ne_none, false_or, reduceCtorEq]
    constructor
    · rintro ⟨p, hp, hcond⟩
      refine ⟨p, hp, ?_⟩
      by_cases hm : p.mount_point = some mount
      · exact Or.inl hm
      · rw [if_neg hm] at hcond
        cases hvg : p.volume_group with
        | none => simp only [hvg, Bool.false_eq_true] at hcond
        | some vg =>
          rcases disks with _ | ds
          · simp only [hvg, Bool.false_eq_true] at hcond
          · cases hld : get_logical_device ds vg.1 with
            | none => simp only [hvg, hld, Bool.false_eq_true] at hcond
            | some ld =>
              simp only [hvg, hld] at hcond
              exact Or.inr ⟨vg, rfl, ds, rfl, ld, hld, hcond⟩
    · rintro ⟨p, hp, hcond⟩
      refine ⟨p, hp, ?_⟩
      rcases hcond with hm | ⟨vg, hvg, ds, hds, ld, hld, hrec⟩
      · rw [if_pos hm]
      · subst hds
        by_cases hm : p.mount_point = some mount
        · rw [if_pos hm]
        · rw [if_neg hm]
          simp only [hvg, hld]
          exact hrec

/-- Witness for the amended C2 on `busy_device` and its own whole-device
mount point. -/
theorem contains_mount_characterization_witness :
    contains_mount none (2 + 1) busy_device "/other" = true ↔
      (busy_device.mount_point = some "/other" ∨
        (busy_device.mount_point = none ∧ ∃ p ∈ busy_device.partitions,
          p.mount_point = some "/other" ∨
          ∃ vg, p.volume_group = some vg ∧
            ∃ ds, (none : Option Disks) = some ds ∧
              ∃ ld, get_logical_device ds vg.1 = some ld ∧
                contains_mount none 2 ld "/other" = true)) :=
  contains_mount_characterization none 2 busy_device "/other"

/-- Splits a character list at every slash. -/
def splitOnSlash : List Char → List (List Char)
  | [] => [[]]
  | c :: cs =>
    if c = '/' then [] :: splitOnSlash cs
    else
      match splitOnSlash cs with
      | r :: rs => (c :: r) :: rs
      | [] => [[c]]

/-- Rust `Path::file_name` semantics on the string form of a path: the
final non-empty component, skipping `.`; none for a root path, an empty
path, or a path ending in `..`. -/
def fileName (p : String) : Option String :=
  match ((splitOnSlash p.data).filter
      (fun c => decide (c ≠ [] ∧ c ≠ ['.']))).getLast? with
  | some c => if c = ['.', '.'] then none else some (String.mk c)
  | none => none

/-- The I/O environment consulted by `is_removable`. `readLink` models
`fs::read_link` (`some` for `Ok`). `firstByte` models opening a file and
pulling the first byte of its `bytes()` iterator: the outer level is the
open result, the middle is `next()` (`none` at end of stream), the inner
is the per-byte read result. -/
structure SysEnv where
  readLink : String → Option String
  firstByte : String → Option (Option (Option Nat))

/-- The sysfs entry name `is_removable` keys on: the final component of
the link target when the device path is a symlink, of the device path
itself otherwise. -/
def resolvedName (env : SysEnv) (device_path : String) : Option String :=
  match env.readLink device_path with
  | some resolved => fileName resolved
  | none => fileName device_path

/-- Shallow embedding of `DiskExt::is_removable`; a `none` result models
the panic of the `expect`/`unwrap` calls on a path with no final
component. The byte 49 is ASCII for the digit one. -/
def is_removable (env : SysEnv) (device_path : String) : Option Bool :=
  match resolvedName env device_path with
  | none => none
  | some name =>
    match env.firstByte ("/sys/class/block/" ++ name ++ "/removable") with
    | some (some (some b)) => some (decide (b = 49))
    | _ => some false

/-- An environment in which every read fails. -/
def dead_env : SysEnv :=
  { readLink := fun _ => none, firstByte := fun _ => none }

/-- C3 counterexample: on the device path `/`, which has no final
component, the source panics at `expect` rather than returning false; the
model reports the panic as `none`. -/
theorem is_removable_claim_false :
    is_removable dead_env "/" = none ∧
    is_removable dead_env "/" ≠ some false := by decide

/-- C3 (amended): whenever the device path — or its link target when it is
a symlink — has a final component, `is_removable` cannot panic: it
returns a Boolean which is true exactly when the first byte of the
`removable` attribute reads as ASCII `1`; every failure to open or read
yields false. -/
theorem is_removable_total (env : SysEnv) (device_path name : String)
    (h : resolvedName env device_path = some name) :
    ∃ r : Bool, is_removable env device_path = some r ∧
      (r = true ↔
        env.firstByte ("/sys/class/block/" ++ name ++ "/removable") =
          some (some (some 49))) := by
  rcases hb : env.firstByte ("/sys/class/block/" ++ name ++ "/removable")
    with _ | (_ | (_ | b))
  · exact ⟨false, by simp [is_removable, h, hb], by simp [hb]⟩
  · exact ⟨false, by simp [is_removable, h, hb], by simp [hb]⟩
  · exact ⟨false, by simp [is_removable, h, hb], by simp [hb]⟩
  · exact ⟨decide (b = 49), by simp [is_removable, h, hb], by simp [hb]⟩

/-- An environment whose only successful read yields the byte 49. -/
def live_env : SysEnv :=
  { readLink := fun _ => none
    firstByte := fun _ => some (some (some 49)) }

/-- Witness for the amended C3 at the path `/dev/sda`, which resolves to
the component `sda`. -/
theorem is_removable_total_witness :
    ∃ r : Bool, is_removable live_env "/dev/sda" = some r ∧
      (r = true ↔
        live_env.firstByte ("/sys/class/block/" ++ "sda" ++ "/removable") =
          some (some (some 49))) :=
  is_removable_total live_env "/dev/sda" "sda" (by decide)

/-- Shallow embedding of the free function `find_partition`: scan devices
in collection order and partitions in device order, and return the device
path and partition of the first partition whose `target` equals the
requested path. -/
def find_partition : List Device → String → Option (String × PartitionInfo)
  | [], _ => none
  | disk :: rest, target =>
    match disk.partitions.find? (fun p => decide (p.target = some target)) with
    | some p => some (disk.device_path, p)
    | none => find_partition rest target

/-- Inner loop of `find_partition_mut`: the source sets a `found` flag
from the partition `target` and returns upon it. -/
def find_mut_scan (target : String) :
    List PartitionInfo → Option PartitionInfo
  | [] => none
  | p :: ps =>
    if (match p.target with
        | some pt => decide (pt = target)
        | none => false) = true then some p
    else find_mut_scan target ps

/-- Shallow embedding of `find_partition_mut`: the same scan as
`find_partition`, with the device path taken by value before the inner
loop. -/
def find_partition_mut : List Device → String → Option (String × PartitionInfo)
  | [], _ => none
  | disk :: rest, target =>
    match find_mut_scan target disk.partitions with
    | some p => some (disk.device_path, p)
    | none => find_partition_mut rest target

/-- The device-path and partition pairs of a collection, flattened in
collection order then device order. -/
def flat_pairs : List Device → List (String × PartitionInfo)
  | [] => []
  | d :: rest => d.partitions.map (fun p => (d.device_path, p)) ++ flat_pairs rest

/-- The found-flag loop of `find_partition_mut` is a plain first match on
the `target` field. -/
theorem find_mut_scan_eq_find? (target : String) (ps : List PartitionInfo) :
    find_mut_scan target ps =
      ps.find? (fun p => decide (p.target = some target)) := by
  induction ps with
  | nil => rfl
  | cons p ps ih =>
    cases hpt : p.target with
    | none => simp [find_mut_scan, List.find?_cons, hpt, ih]
    | some pt =>
      by_cases hq : pt = target
      · simp [find_mut_scan, List.find?_cons, hpt, hq]
      · simp [find_mut_scan, List.find?_cons, hpt, hq, ih]

/-- The device loop of `find_partition` is a first match over the
flattened pair list. -/
theorem find_partition_eq_flat (disks : List Device) (target : String) :
    find_partition disks target =
      (flat_pairs disks).find?
        (fun pr => decide (pr.2.target = some target)) := by
  induction disks with
  | nil => rfl
  | cons d rest ih =>
    simp only [find_partition, flat_pairs]
    rw [List.find?_append, List.find?_map]
    rw [show ((fun pr : String × PartitionInfo =>
          decide (pr.2.target = some target)) ∘
        (fun p => (d.device_path, p))) =
        (fun p : PartitionInfo => decide (p.target = some target)) from rfl]
    cases hfind :
        d.partitions.find? (fun p => decide (p.target = some target)) with
    | some p => simp [hfind]
    | none => simp [hfind, ih]

/-- The mutable and read-only locators agree. -/
theorem find_partition_mut_eq (disks : List Device) (target : String) :
    find_partition_mut disks target = find_partition disks target := by
  induction disks with
  | nil => rfl
  | cons d rest ih =>
    simp only [find_partition_mut, find_partition, find_mut_scan_eq_find?]
    cases d.partitions.find? (fun p => decide (p.target = some target)) <;>
      simp [ih]

/-- Every flattened pair is a partition of a device of the collection,
tagged with that device path. -/
theorem mem_flat_pairs (pr : String × PartitionInfo) (disks : List Device)
    (h : pr ∈ flat_pairs disks) :
    ∃ d ∈ disks, ∃ p ∈ d.partitions, pr = (d.device_path, p) := by
  induction disks with
  | nil => cases h
  | cons d rest ih =>
    simp only [flat_pairs, List.mem_append, List.mem_map] at h
    rcases h with ⟨p, hp, rfl⟩ | h
    · exact ⟨d, List.mem_cons_self d rest, p, hp, rfl⟩
    · rcases ih h with ⟨d2, hd2, p, hp, heq⟩
      exact ⟨d2, List.mem_cons_of_mem d hd2, p, hp, heq⟩

/-- C9: both locators are the first match, in collection order then
device order, on the partition `target` field alone, and when no
partition carries the requested path as its `target` — regardless of any
`mount_point` — both return none. -/
theorem find_partition_spec (disks : List Device) (target : String) :
    find_partition disks target =
      (flat_pairs disks).find?
        (fun pr => decide (pr.2.target = some target)) ∧
    find_partition_mut disks target = find_partition disks target ∧
    ((∀ d ∈ disks, ∀ p ∈ d.partitions, p.target ≠ some target) →
      find_partition disks target = none ∧
      find_partition_mut disks target = none) := by
  refine ⟨find_partition_eq_flat disks target,
    find_partition_mut_eq disks target, ?_⟩
  intro hno
  have hnone : find_partition disks target = none := by
    rw [find_partition_eq_flat, List.find?_eq_none]
    intro pr hpr
    rcases mem_flat_pairs pr disks hpr with ⟨d, hd, p, hp, rfl⟩
    simpa using hno d hd p hp
  exact ⟨hnone, by rw [find_partition_mut_eq]; exact hnone⟩

/-- Witness for C9: `busy_device` has a partition whose `mount_point` is
`/target` but whose `target` is unset, and both locators return none when
searching for `/target`. -/
theorem find_partition_spec_witness :
    find_partition [busy_device] "/target" = none ∧
    find_partition_mut [busy_device] "/target" = none :=
  (find_partition_spec [busy_device] "/target").2.2 (by decide)

end Distinst
